import Mathlib

/-!
Shallow embedding of the stellar-connect anchor service
(packages/anchor: transfer engine, in-memory transfer store, SEP-10
auth issuer and nonce registry, SEP error envelope, TOML discovery
publisher), with theorems checking the natural-language specification
against the code.

Timestamps are modelled as `Nat` (milliseconds since epoch, as JS
`Date.getTime()`); each handler takes the current time as a parameter
(the code reads `new Date()` within one handler invocation).
-/

/-! ### Transfer data model — packages/anchor/src/transfer/types.ts -/

/-- `TransferKind` from transfer/types.ts. -/
inductive TransferKind where
  | deposit
  | withdrawal
deriving DecidableEq, Repr

/-- `TransferStatus` from transfer/types.ts.  The TS enum has two members
`INITIATING` and `INTERACTIVE` that both carry the wire value
`'incomplete'`; the embedding is by value, so they collapse to the single
constructor `incomplete` (all comparisons in the code are string
comparisons on the wire value). -/
inductive TransferStatus where
  | incomplete
  | pending_user_transfer_start
  | pending_external
  | completed
  | error
  | refunded
  | pending_user
  | pending_anchor
deriving DecidableEq, Repr

/-- `InteractiveToken` from transfer/types.ts. -/
structure InteractiveToken where
  token : String
  createdAt : Nat
  expiresAt : Nat
  used : Bool
deriving DecidableEq, Repr

/-- `Transfer` from transfer/types.ts (metadata omitted: no claim touches
it and no code path read below depends on it). -/
structure Transfer where
  id : String
  kind : TransferKind
  status : TransferStatus
  assetCode : String
  assetIssuer : Option String := none
  account : String
  amount : Option String := none
  interactiveToken : Option InteractiveToken := none
  interactiveUrl : Option String := none
  more_info_url : Option String := none
  externalTransactionId : Option String := none
  stellarTransactionId : Option String := none
  message : Option String := none
  createdAt : Nat
  updatedAt : Nat
  completedAt : Option Nat := none
deriving DecidableEq, Repr

/-- A `Partial<Transfer>` as used by the repository's `update` call sites.
JS distinguishes an absent key from a key present with value `undefined`:
spreading `{ completedAt: undefined }` over an existing record clears the
field, while an absent key leaves it alone.  Fields that are optional in
`Transfer` are therefore `Option (Option _)` here (outer: key present;
inner: value or `undefined`), and mandatory fields are `Option _`
(key present or absent).  Only the fields that the repository's update
call sites supply are included. -/
structure PartialTransfer where
  status : Option TransferStatus := none
  interactiveToken : Option (Option InteractiveToken) := none
  completedAt : Option (Option Nat) := none
  message : Option (Option String) := none
  stellarTransactionId : Option (Option String) := none
  externalTransactionId : Option (Option String) := none
deriving DecidableEq, Repr

/-- JS object spread `{ ...base, ...override }` restricted to the
`PartialTransfer` fields: a key present in `override` wins. -/
def PartialTransfer.merge (base override : PartialTransfer) : PartialTransfer where
  status := override.status <|> base.status
  interactiveToken := override.interactiveToken <|> base.interactiveToken
  completedAt := override.completedAt <|> base.completedAt
  message := override.message <|> base.message
  stellarTransactionId := override.stellarTransactionId <|> base.stellarTransactionId
  externalTransactionId := override.externalTransactionId <|> base.externalTransactionId

/-- `{ ...existing, ...updates, id, updatedAt: new Date() }` from
`InMemoryTransferStore.update`: supplied keys replace fields, `id` is
preserved and `updatedAt` is always refreshed (both appear after the
spread in the source, so they win). -/
def applyUpdates (existing : Transfer) (updates : PartialTransfer) (now : Nat) : Transfer :=
  { existing with
    status := updates.status.getD existing.status
    interactiveToken := (updates.interactiveToken).getD existing.interactiveToken
    completedAt := (updates.completedAt).getD existing.completedAt
    message := (updates.message).getD existing.message
    stellarTransactionId := (updates.stellarTransactionId).getD existing.stellarTransactionId
    externalTransactionId := (updates.externalTransactionId).getD existing.externalTransactionId
    id := existing.id
    updatedAt := now }

/-! ### In-memory transfer store — transfer/transfer-store.ts
(`InMemoryTransferStore`).  A JS `Map` keeps insertion order and
`set` on an existing key keeps its position, so both maps are modelled
as association lists with replace-in-place. -/

/-- `Map.set`: replace in place when the key exists, append otherwise. -/
def setAssoc {α : Type} (l : List (String × α)) (k : String) (v : α) : List (String × α) :=
  match l with
  | [] => [(k, v)]
  | (k', v') :: rest =>
    if k' = k then (k, v) :: rest else (k', v') :: setAssoc rest k v

/-- `Map.get`. -/
def getAssoc {α : Type} (l : List (String × α)) (k : String) : Option α :=
  match l with
  | [] => none
  | (k', v') :: rest => if k' = k then some v' else getAssoc rest k

/-- `InMemoryTransferStore`: primary map from id to transfer plus the
secondary index from interactive-token value to transfer id. -/
structure InMemoryTransferStore where
  transfers : List (String × Transfer) := []
  tokenIndex : List (String × String) := []
deriving DecidableEq, Repr

namespace InMemoryTransferStore

/-- `create`: store the transfer and index its interactive token. -/
def create (s : InMemoryTransferStore) (t : Transfer) : InMemoryTransferStore :=
  let s := { s with transfers := setAssoc s.transfers t.id t }
  match t.interactiveToken with
  | some itok => { s with tokenIndex := setAssoc s.tokenIndex itok.token t.id }
  | none => s

/-- `getById`. -/
def getById (s : InMemoryTransferStore) (id : String) : Option Transfer :=
  getAssoc s.transfers id

/-- `FindByAccountOptions` from transfer/types.ts.  `limit` is `Int`
because the claims exercise zero and negative limits. -/
structure FindByAccountOptions where
  assetCode : Option String := none
  kind : Option TransferKind := none
  noOlderThan : Option Nat := none
  limit : Option Int := none
deriving DecidableEq, Repr

/-- Comparator of `listByAccount`:
`results.sort((a, b) => b.createdAt.getTime() - a.createdAt.getTime())`,
i.e. newest first; JS `Array.prototype.sort` is stable, modelled with
stable `List.mergeSort`. -/
def createdDesc (a b : Transfer) : Bool :=
  b.createdAt ≤ a.createdAt

/-- `listByAccount`: collect the account's transfers in map order, apply
the asset-code, kind and not-older-than filters, sort newest first, then
apply the limit — the truthiness guard `options?.limit && options.limit > 0`
skips the slice for a missing, zero or negative limit. -/
def listByAccount (s : InMemoryTransferStore) (account : String)
    (options : FindByAccountOptions) : List Transfer :=
  let results : List Transfer :=
    (s.transfers.map Prod.snd).filter (fun t => t.account = account)
  let results : List Transfer := match options.assetCode with
    | some code => results.filter (fun t => t.assetCode = code)
    | none => results
  let results : List Transfer := match options.kind with
    | some k => results.filter (fun t => t.kind = k)
    | none => results
  let results : List Transfer := match options.noOlderThan with
    | some d => results.filter (fun t => d ≤ t.createdAt)
    | none => results
  let results := results.mergeSort createdDesc
  match options.limit with
  | some l => if 0 < l then results.take l.toNat else results
  | none => results

/-- `update`: missing id returns `null` with no mutation; otherwise merge
the supplied fields (preserving `id`, refreshing `updatedAt`) and store
the result in place; the token index is re-pointed when the update
supplies a (non-undefined) interactive token. -/
def update (s : InMemoryTransferStore) (id : String) (updates : PartialTransfer)
    (now : Nat) : Option Transfer × InMemoryTransferStore :=
  match getAssoc s.transfers id with
  | none => (none, s)
  | some existing =>
    let updated := applyUpdates existing updates now
    let s := { s with transfers := setAssoc s.transfers id updated }
    let s := match updated.interactiveToken, updates.interactiveToken with
      | some itok, some (some _) => { s with tokenIndex := setAssoc s.tokenIndex itok.token id }
      | _, _ => s
    (some updated, s)

end InMemoryTransferStore

/-! ### SEP-24 service — transfer/sep24/sep24-service.ts -/

/-- JS `String.prototype.toUpperCase`, written over the character list so
that proofs can evaluate it (asset codes are ASCII). -/
def strToUpper (s : String) : String :=
  String.mk (s.data.map Char.toUpper)

/-- `Sep24TransferConfig.supportedAssets` is the only config field the
asset check reads. -/
structure Sep24TransferConfig where
  supportedAssets : Option (List String) := none
deriving DecidableEq, Repr

namespace Sep24Service

/-- Asset validation shared by `initiateDeposit` and `initiateWithdrawal`
(sep24-service.ts lines 24-31 / 50-57): when `supportedAssets` is
configured, the requested code and each configured code are upper-cased
before comparison; an unknown asset throws a plain
`Error('Asset <code> not supported by anchor')`. -/
def validateAsset (config : Sep24TransferConfig) (assetCode : String) :
    Except String Unit :=
  match config.supportedAssets with
  | none => .ok ()
  | some supported =>
    if (supported.map strToUpper).contains (strToUpper assetCode) then .ok ()
    else .error s!"Asset {assetCode} not supported by anchor"

/-- `isTerminalStatus`: status is one of `completed`, `error`, `refunded`. -/
def isTerminalStatus (status : TransferStatus) : Bool :=
  [TransferStatus.completed, TransferStatus.error, TransferStatus.refunded].contains status

/-- `getNextStatus`: from `incomplete`, a deposit moves to
`pending_user_transfer_start` and a withdrawal to `pending_anchor`;
any other status is returned unchanged. -/
def getNextStatus (transfer : Transfer) : TransferStatus :=
  if transfer.status = TransferStatus.incomplete then
    match transfer.kind with
    | .deposit => TransferStatus.pending_user_transfer_start
    | .withdrawal => TransferStatus.pending_anchor
  else transfer.status

/-- `validateInteractiveToken`: fetch the transfer, require an
interactive token whose value matches, that is not used and not expired
(`expiresAt < new Date()` throws), in that order.  Failures are plain
`Error`s with the messages of the source. -/
def validateInteractiveToken (s : InMemoryTransferStore) (id token : String)
    (now : Nat) : Except String Transfer :=
  match s.getById id with
  | none => .error s!"Transfer {id} not found"
  | some transfer =>
    match transfer.interactiveToken with
    | none => .error s!"Transfer {id} has no interactive token"
    | some itok =>
      if itok.token ≠ token then .error "Invalid token"
      else if itok.used then .error "Token already used"
      else if itok.expiresAt < now then .error "Token expired"
      else .ok transfer

/-- `completeInteractive`: validate the token, mark it used, and persist
status (per `getNextStatus`, computed from the pre-call status) together
with the consumed token in one `store.update`. -/
def completeInteractive (s : InMemoryTransferStore) (id token : String)
    (now : Nat) : Except String (Transfer × InMemoryTransferStore) :=
  match validateInteractiveToken s id token now with
  | .error e => .error e
  | .ok transfer =>
    let usedToken := transfer.interactiveToken.map (fun itok => { itok with used := true })
    let transfer := { transfer with interactiveToken := usedToken }
    match s.update id
        { status := some (getNextStatus transfer)
          interactiveToken := some transfer.interactiveToken } now with
    | (none, _) => .error s!"Failed to update transfer {id}"
    | (some updated, s) => .ok (updated, s)

/-- `updateStatus`: require the transfer to exist, compute
`completedAt := isTerminalStatus status ? new Date() : undefined`, and
store `{ status, completedAt, ...updates }` — the caller-supplied extra
updates are spread last, so they win over both fields. -/
def updateStatus (s : InMemoryTransferStore) (id : String)
    (status : TransferStatus) (updates : PartialTransfer) (now : Nat) :
    Except String (Transfer × InMemoryTransferStore) :=
  match s.getById id with
  | none => .error s!"Transfer {id} not found"
  | some _ =>
    let completedAt : Option Nat := if isTerminalStatus status then some now else none
    let base : PartialTransfer := { status := some status, completedAt := some completedAt }
    match s.update id (base.merge updates) now with
    | (none, _) => .error s!"Failed to update transfer {id}"
    | (some updated, s) => .ok (updated, s)

end Sep24Service

/-! ### Error envelope — errors.ts (`SepError`) and the router catch
blocks of modules/sep24 and modules/sep6. -/

/-- `SepError` (errors.ts): message, machine code, HTTP status, optional
detail mapping (values modelled as strings; only keys matter to the
claims). -/
structure SepError where
  message : String
  code : String
  status : Nat
  details : List (String × String) := []
deriving DecidableEq, Repr

/-- A JSON object, as the ordered key-value list the code builds. -/
abbrev JsonObj := List (String × String)

/-- Key-presence in a JSON object. -/
def hasJsonKey (o : JsonObj) (k : String) : Bool :=
  o.any (fun kv => kv.1 = k)

/-- `SepError.toJSON`: `{ error: message, code, ...details }`. -/
def SepError.toJSON (e : SepError) : JsonObj :=
  ("error", e.message) :: ("code", e.code) :: e.details

/-- `badRequest` factory (errors.ts): code `bad_request`, status 400. -/
def badRequest (message : String) : SepError :=
  { message := message, code := "bad_request", status := 400 }

/-- The catch block shared by the sep24/sep6 route handlers:
`error instanceof SepError ? error : new SepError(message, 'error',
error?.status ?? 400)` — a plain `Error` (which carries no `status`)
is wrapped with machine code `error` and status 400. -/
def wrapPlainError (message : String) : SepError :=
  { message := message, code := "error", status := 400 }

/-- An HTTP response: status plus JSON body. -/
structure HttpResponse where
  status : Nat
  body : JsonObj
deriving DecidableEq, Repr

/-- Wire string of a transfer status. -/
def TransferStatus.wire : TransferStatus → String
  | .incomplete => "incomplete"
  | .pending_user_transfer_start => "pending_user_transfer_start"
  | .pending_external => "pending_external"
  | .completed => "completed"
  | .error => "error"
  | .refunded => "refunded"
  | .pending_user => "pending_user"
  | .pending_anchor => "pending_anchor"

/-- `POST /interactive/complete` (modules/sep6/router.ts, sep24 router
factory): with both parameters present, run `completeInteractive`; on
success respond 200 `{ success, status, message }`; the service's plain
errors are wrapped by the catch block via `wrapPlainError`. -/
def interactiveCompleteRoute (s : InMemoryTransferStore) (id token : String)
    (now : Nat) : HttpResponse × InMemoryTransferStore :=
  match Sep24Service.completeInteractive s id token now with
  | .ok (transfer, s) =>
    ({ status := 200
       body := [("success", "true"), ("status", transfer.status.wire),
                ("message", "Interactive flow completed successfully")] }, s)
  | .error msg =>
    ({ status := (wrapPlainError msg).status, body := (wrapPlainError msg).toJSON }, s)

/-! ### Nonce registry — auth/nonce-store.ts (`NonceStore`) and the
nonce handling of `AuthIssuer.verifyChallenge`
(auth/auth-issuer.ts lines 142-168). -/

/-- `NonceStore`: a map from nonce to insertion timestamp (ms).  The
class exposes `add`, `has`, `clear`, the periodic `clearExpired` sweep
and `destroy`; it has no operation that marks a nonce consumed. -/
structure NonceStore where
  store : List (String × Nat) := []
deriving DecidableEq, Repr

namespace NonceStore

/-- The TTL constant: 5 minutes in milliseconds. -/
def ttl : Nat := 300000

/-- `has`. -/
def has (s : NonceStore) (nonce : String) : Bool :=
  (getAssoc s.store nonce).isSome

/-- `add`: reject a nonce that is already present. -/
def add (s : NonceStore) (nonce : String) (now : Nat) : Bool × NonceStore :=
  if s.has nonce then (false, s)
  else (true, { store := setAssoc s.store nonce now })

/-- `clearExpired`: the sweeper deletes entries with `now - timestamp > ttl`. -/
def clearExpired (s : NonceStore) (now : Nat) : NonceStore :=
  { store := s.store.filter (fun kv => ¬ (ttl < now - kv.2)) }

end NonceStore

/-- The replay-protection step of `AuthIssuer.verifyChallenge`
(auth-issuer.ts lines 148-151), reached after envelope parsing, the
signature checks and nonce extraction all succeed (those stages involve
the Stellar SDK and the chain and are abstracted as already passed; they
do not touch the nonce store).  The code only checks
`this.nonceStore.has(nonce)` and throws `'Invalid or expired nonce'`
when absent; on success it proceeds to mint the token.  Nothing in
`verifyChallenge` removes the nonce or marks it consumed, so the store
is returned unchanged on both branches. -/
def verifyChallengeNonceStep (s : NonceStore) (nonce : String) :
    Except String Unit × NonceStore :=
  if s.has nonce then (.ok (), s)
  else (.error "Invalid or expired nonce", s)

/-! ### Bearer-token guard — `AuthIssuer.requireAuth`
(auth-issuer.ts lines 191-218). -/

/-- Outcome of the guard middleware: reject with a response, or call
`next` with the decoded claim subject attached to the request. -/
inductive GuardOutcome where
  | reject (response : HttpResponse)
  | next (sub : String)
deriving DecidableEq, Repr

/-- `requireAuth`: missing header → 403 `{ error: 'Missing authorization
header' }`; header not of the form `Bearer <token>` → 403 `{ error:
'Invalid authorization header format' }`; `jwt.verify` failure → 401
`{ error: 'Invalid or expired token' }`; otherwise attach the claims and
continue.  `jwt.verify` is external and is abstracted as a parameter
returning the token subject or nothing.  None of the rejection bodies
carries a `code` field. -/
def requireAuth (verify : String → Option String) (authHeader : Option String) :
    GuardOutcome :=
  match authHeader with
  | none => .reject { status := 403, body := [("error", "Missing authorization header")] }
  | some header =>
    if (header.splitOn " ").length ≠ 2 ∨ (header.splitOn " ").headD "" ≠ "Bearer" then
      .reject { status := 403, body := [("error", "Invalid authorization header format")] }
    else
      match verify ((header.splitOn " ").getD 1 "") with
      | none => .reject { status := 401, body := [("error", "Invalid or expired token")] }
      | some sub => .next sub

/-! ### SEP-6 asset validation — modules/sep6/router.ts
(`GET /deposit` lines 79-90, `GET /withdraw` lines 180-195). -/

/-- Per-operation asset configuration (config/types.ts
`AssetOperationConfig`; only `enabled` is read by the checks). -/
structure AssetOperationConfig where
  enabled : Bool
deriving DecidableEq, Repr

/-- Asset configuration (config/types.ts `AssetConfig`), restricted to
the fields the routers and the TOML publisher read. -/
structure AssetConfig where
  issuer : Option String := none
  name : Option String := none
  desc : Option String := none
  displayDecimals : Option Nat := none
  status : Option String := none
  deposit : Option AssetOperationConfig := none
  withdraw : Option AssetOperationConfig := none
deriving DecidableEq, Repr

/-- The SEP-6 deposit asset check: `server.config.assets[asset_code]` is
an exact (case-sensitive) key lookup; a missing key throws
`badRequest('Asset <code> is not supported')`, and a present asset with
deposits not enabled throws
`badRequest('Deposits are not enabled for <code>')`. -/
def sep6DepositAssetCheck (assets : List (String × AssetConfig)) (assetCode : String) :
    Except SepError AssetConfig :=
  match getAssoc assets assetCode with
  | none => .error (badRequest s!"Asset {assetCode} is not supported")
  | some assetConfig =>
    match assetConfig.deposit with
    | some dep =>
      if dep.enabled then .ok assetConfig
      else .error (badRequest s!"Deposits are not enabled for {assetCode}")
    | none => .error (badRequest s!"Deposits are not enabled for {assetCode}")

/-- The SEP-6 withdraw asset check, same shape
(`'Withdrawals are not enabled for <code>'`). -/
def sep6WithdrawAssetCheck (assets : List (String × AssetConfig)) (assetCode : String) :
    Except SepError AssetConfig :=
  match getAssoc assets assetCode with
  | none => .error (badRequest s!"Asset {assetCode} is not supported")
  | some assetConfig =>
    match assetConfig.withdraw with
    | some w =>
      if w.enabled then .ok assetConfig
      else .error (badRequest s!"Withdrawals are not enabled for {assetCode}")
    | none => .error (badRequest s!"Withdrawals are not enabled for {assetCode}")

/-- The SEP-24 initiation routes run `Sep24Service.validateAsset` through
the transfer manager; its plain `Error` is wrapped by the route's catch
block, so an unknown asset surfaces as status 400 with machine code
`error` (not `bad_request`). -/
def sep24InitiateAssetError (config : Sep24TransferConfig) (assetCode : String) :
    Option SepError :=
  match Sep24Service.validateAsset config assetCode with
  | .ok () => none
  | .error msg => some (wrapPlainError msg)

/-! ### Discovery publisher — toml/publisher.ts (`TomlPublisher`) and the
mount bookkeeping of anchor-server.ts (`AnchorServer.sep10/sep24/sep6`). -/

/-- `AnchorMeta` (config/types.ts): the optional documentation block. -/
structure AnchorMeta where
  orgName : Option String := none
  orgUrl : Option String := none
  orgDescription : Option String := none
  orgLogo : Option String := none
  orgPhysicalAddress : Option String := none
  orgOfficialEmail : Option String := none
  orgSupportEmail : Option String := none
deriving DecidableEq, Repr

/-- Network selector (config/types.ts `AnchorServerConfig.network`). -/
inductive NetworkKind where
  | publicNet
  | testnet
  | futurenet
  | standalone
  | mainnet
deriving DecidableEq, Repr

/-- The anchor-server state the publisher reads: derived signing public
key, derived network passphrase, the mounted-module set (as one flag per
module) and the configuration fields `domain`, `meta`, `network`,
`assets`. -/
structure AnchorServerState where
  publicKey : String
  networkPassphrase : String
  mounted10 : Bool := false
  mounted24 : Bool := false
  mounted6 : Bool := false
  domain : String
  meta : Option AnchorMeta := none
  network : NetworkKind
  assets : List (String × AssetConfig) := []
deriving DecidableEq, Repr

/-- `AnchorServer.sep10()` adds `'sep10'` to `mountedModules` (and
returns the router); it does not touch any publisher. -/
def mountSep10 (s : AnchorServerState) : AnchorServerState :=
  { s with mounted10 := true }

/-- `AnchorServer.sep24(hooks)` adds `'sep24'` to `mountedModules`. -/
def mountSep24 (s : AnchorServerState) : AnchorServerState :=
  { s with mounted24 := true }

/-- `AnchorServer.sep6(hooks?)` adds `'sep6'` to `mountedModules`. -/
def mountSep6 (s : AnchorServerState) : AnchorServerState :=
  { s with mounted6 := true }

/-- JS `String.prototype.startsWith`, written over the character list so
that proofs can evaluate it. -/
def strStartsWith (s p : String) : Bool :=
  p.data.isPrefixOf s.data

/-- `TomlPublisher.getProtocol`:
`domain === 'localhost' || domain.startsWith('localhost:') ? 'http' : 'https'`. -/
def getProtocol (domain : String) : String :=
  if domain = "localhost" ∨ strStartsWith domain "localhost:" then "http" else "https"

/-- `TomlPublisher.buildSepUrl`: `<protocol>://<domain><path>`. -/
def buildSepUrl (domain path : String) : String :=
  getProtocol domain ++ "://" ++ domain ++ path

/-- `TomlStructure` as produced by `TomlPublisher.buildFromServer`:
the required pair plus the conditional endpoint and documentation
fields.  (`VERSION`, `ACCOUNTS` and `PRINCIPALS` exist in the TS type
but `buildFromServer` — the only structure producer in this repository —
never sets them, so every structure the publisher renders has them
absent; they are kept to mirror `stringifyToml`, which branches on
them.) -/
structure TomlStructure where
  SIGNING_KEY : String
  NETWORK_PASSPHRASE : String
  VERSION : Option String := none
  ACCOUNTS : Option (List String) := none
  WEB_AUTH_ENDPOINT : Option String := none
  TRANSFER_SERVER_SEP0024 : Option String := none
  TRANSFER_SERVER : Option String := none
  DOCUMENTATION : Option AnchorMeta := none
deriving DecidableEq, Repr

/-- `TomlPublisher.buildFromServer`. -/
def buildFromServer (server : AnchorServerState) : TomlStructure :=
  { SIGNING_KEY := server.publicKey
    NETWORK_PASSPHRASE := server.networkPassphrase
    WEB_AUTH_ENDPOINT :=
      if server.mounted10 then some (buildSepUrl server.domain "/auth") else none
    TRANSFER_SERVER_SEP0024 :=
      if server.mounted24 then some (buildSepUrl server.domain "/sep24") else none
    TRANSFER_SERVER :=
      if server.mounted6 then some (buildSepUrl server.domain "/sep6") else none
    DOCUMENTATION := server.meta }

/-- `CurrencyInfo` as built by `mapAssetsToCurrencies` (the fields it
sets; the other `CurrencyInfo` fields stay undefined and are skipped by
`appendCurrencyFields`). -/
structure CurrencyInfo where
  code : String
  issuer : Option String := none
  status : String
  display_decimals : Option Nat := none
  name : String
  desc : String
deriving DecidableEq, Repr

/-- `mapAssetsToCurrencies`: derive the default status from the network
(`test` for testnet/futurenet/standalone, `live` otherwise), keep an
explicit `live`/`test`, fall back to the default for anything else
(including `dead`/`private`), normalize `native`/`XLM` to `native`, and
default `name`/`desc` to the code (JS `||`: an empty string also falls
back). -/
def mapAssetsToCurrencies (server : AnchorServerState) : List CurrencyInfo :=
  let isTestnet := server.network = NetworkKind.testnet ∨
    server.network = NetworkKind.futurenet ∨ server.network = NetworkKind.standalone
  let defaultStatus := if isTestnet then "test" else "live"
  server.assets.map (fun kv =>
    let code := kv.1
    let asset := kv.2
    let status := match asset.status with
      | some st => if st = "live" ∨ st = "test" then st else defaultStatus
      | none => defaultStatus
    let isNative := code = "native" ∨ code = "XLM"
    { code := if isNative then "native" else code
      issuer := asset.issuer
      status := status
      display_decimals := asset.displayDecimals
      name := match asset.name with
        | some n => if n = "" then code else n
        | none => code
      desc := match asset.desc with
        | some d => if d = "" then code else d
        | none => code })

/-- One line of the rendered document.  `stringifyToml` builds a line
array and joins it; the embedding keeps the array, with key-value lines
kept as (key, rendered value) pairs — the rendered value string is the
part after `key = `. -/
inductive TomlLine where
  | kv (key value : String)
  | blank
  | header (text : String)
deriving DecidableEq, Repr

/-- `escapeTomlString`: backslash-escape `\`, `"`, newline, carriage
return, tab. -/
def escapeTomlString (s : String) : String :=
  String.mk (s.data.flatMap (fun c =>
    if c = '\\' then ['\\', '\\']
    else if c = '"' then ['\\', '"']
    else if c = '\n' then ['\\', 'n']
    else if c = '\r' then ['\\', 'r']
    else if c = '\t' then ['\\', 't']
    else [c]))

/-- `toTomlKeyValue` for a string value: double-quoted with escapes. -/
def fmtStr (v : String) : String := "\"" ++ escapeTomlString v ++ "\""

/-- `toTomlKeyValue` for a number: unquoted. -/
def fmtNat (v : Nat) : String := toString v

/-- `toTomlKeyValue` for a boolean: unquoted. -/
def fmtBool (v : Bool) : String := if v then "true" else "false"

/-- `toTomlKeyValue` for an array of strings: bracketed, comma-separated,
individually quoted (the empty array renders `[]`). -/
def fmtStrArray (vs : List String) : String :=
  "[" ++ String.intercalate ", " (vs.map fmtStr) ++ "]"

/-- A key-value line emitted only when the value is defined (the
`if (value !== undefined && value !== null)` guards in `stringifyToml`
and `appendCurrencyFields`). -/
def optKv (key : String) (value : Option String) : List TomlLine :=
  match value with
  | some v => [TomlLine.kv key v]
  | none => []

/-- The `[DOCUMENTATION]` body: `mapMetaToDocumentation` lists the seven
lower-snake-case keys in fixed order and `stringifyToml` emits those
whose value is defined. -/
def documentationLines (meta : AnchorMeta) : List TomlLine :=
  optKv "org_name" (meta.orgName.map fmtStr) ++
  optKv "org_url" (meta.orgUrl.map fmtStr) ++
  optKv "org_description" (meta.orgDescription.map fmtStr) ++
  optKv "org_logo" (meta.orgLogo.map fmtStr) ++
  optKv "org_physical_address" (meta.orgPhysicalAddress.map fmtStr) ++
  optKv "org_official_email" (meta.orgOfficialEmail.map fmtStr) ++
  optKv "org_support_email" (meta.orgSupportEmail.map fmtStr)

/-- `appendCurrencyFields`: emit the defined fields of a currency in the
fixed field order (`code`, `issuer`, `status`, `display_decimals`,
`name`, `desc`, …, `is_asset_anchored`, `anchor_asset_type`; the fields
`mapAssetsToCurrencies` never sets are skipped by the undefined guard). -/
def currencyFieldLines (c : CurrencyInfo) : List TomlLine :=
  [TomlLine.kv "code" (fmtStr c.code)] ++
  optKv "issuer" (c.issuer.map fmtStr) ++
  [TomlLine.kv "status" (fmtStr c.status)] ++
  optKv "display_decimals" (c.display_decimals.map fmtNat) ++
  [TomlLine.kv "name" (fmtStr c.name),
   TomlLine.kv "desc" (fmtStr c.desc),
   TomlLine.kv "is_asset_anchored" (fmtBool false),
   TomlLine.kv "anchor_asset_type" (fmtStr "crypto")]

/-- `stringifyToml`: the line array in source order — the required pair,
the conditional `VERSION`/`ACCOUNTS`, the three conditional endpoints
(a blank line before `WEB_AUTH_ENDPOINT`), the documentation block, and
one `[[CURRENCIES]]` section per configured asset.  (The trailing loop
over non-reserved keys of the structure is dead for structures built by
`buildFromServer`, which never adds extra keys, and `PRINCIPALS` is
likewise never set.) -/
def stringifyToml (server : AnchorServerState) (structure_ : TomlStructure) :
    List TomlLine :=
  [TomlLine.kv "SIGNING_KEY" (fmtStr structure_.SIGNING_KEY),
   TomlLine.kv "NETWORK_PASSPHRASE" (fmtStr structure_.NETWORK_PASSPHRASE)] ++
  optKv "VERSION" (structure_.VERSION.map fmtStr) ++
  (match structure_.ACCOUNTS with
   | some accounts =>
     if accounts.length ≠ 0 then [TomlLine.kv "ACCOUNTS" (fmtStrArray accounts)] else []
   | none => []) ++
  (match structure_.WEB_AUTH_ENDPOINT with
   | some url => [TomlLine.blank, TomlLine.kv "WEB_AUTH_ENDPOINT" (fmtStr url)]
   | none => []) ++
  optKv "TRANSFER_SERVER_SEP0024" (structure_.TRANSFER_SERVER_SEP0024.map fmtStr) ++
  optKv "TRANSFER_SERVER" (structure_.TRANSFER_SERVER.map fmtStr) ++
  (match structure_.DOCUMENTATION with
   | some meta => [TomlLine.blank, TomlLine.header "[DOCUMENTATION]"] ++ documentationLines meta
   | none => []) ++
  (mapAssetsToCurrencies server).flatMap (fun c =>
    [TomlLine.blank, TomlLine.header "[[CURRENCIES]]"] ++ currencyFieldLines c)

/-- `TomlPublisher` instance state: the cached rendering. -/
structure TomlPublisher where
  cachedToml : Option (List TomlLine) := none
deriving DecidableEq, Repr

/-- `TomlPublisher.render`: return the cached rendering when present;
otherwise build from the server, cache and return. -/
def TomlPublisher.render (pub : TomlPublisher) (server : AnchorServerState) :
    List TomlLine × TomlPublisher :=
  match pub.cachedToml with
  | some cached => (cached, pub)
  | none =>
    let doc := stringifyToml server (buildFromServer server)
    (doc, { cachedToml := some doc })

/-- `TomlPublisher.invalidateCache` (defined in the source but never
called by any repository code). -/
def TomlPublisher.invalidateCache (_pub : TomlPublisher) : TomlPublisher :=
  { cachedToml := none }

/-- Whether the document contains a top-level key-value line for `key`. -/
def hasTomlKey (doc : List TomlLine) (key : String) : Bool :=
  doc.any (fun l => match l with
    | TomlLine.kv k _ => k = key
    | _ => false)

/-! ### Helper lemmas -/

/-- Reading back the key just written into an association map. -/
theorem getAssoc_setAssoc {α : Type} (l : List (String × α)) (k : String) (v : α) :
    getAssoc (setAssoc l k v) k = some v := by
  induction l with
  | nil => simp [setAssoc, getAssoc]
  | cons head tail ih =>
    obtain ⟨k', v'⟩ := head
    by_cases h : k' = k <;> simp [setAssoc, getAssoc, h, ih]

/-- Success characterization of `Sep24Service.validateInteractiveToken`:
it returns exactly the stored transfer, and only when that transfer has
an interactive token whose value matches and that is neither used nor
expired. -/
theorem validateInteractiveToken_ok {s : InMemoryTransferStore} {id tok : String}
    {now : Nat} {t : Transfer}
    (h : Sep24Service.validateInteractiveToken s id tok now = .ok t) :
    s.getById id = some t ∧
    ∃ itok, t.interactiveToken = some itok ∧ itok.token = tok ∧
      itok.used = false ∧ ¬ itok.expiresAt < now := by
  unfold Sep24Service.validateInteractiveToken at h
  split at h
  · exact absurd h (by simp)
  rename_i transfer hget
  split at h
  · exact absurd h (by simp)
  rename_i itok hitok
  split at h
  · exact absurd h (by simp)
  rename_i htok
  split at h
  · exact absurd h (by simp)
  rename_i hused
  split at h
  · exact absurd h (by simp)
  rename_i hexp
  injection h with h
  subst h
  push_neg at htok
  exact ⟨hget, itok, hitok, htok, by simpa using hused, hexp⟩

/-- `update` leaves the primary map alone on a missing id, and otherwise
replaces the entry in place with the merged transfer (both branches of
the token-index bookkeeping keep the same primary map). -/
theorem update_snd_transfers (s : InMemoryTransferStore) (id : String)
    (p : PartialTransfer) (now : Nat) :
    ((s.update id p now).2).transfers =
      (match getAssoc s.transfers id with
        | none => s.transfers
        | some t => setAssoc s.transfers id (applyUpdates t p now)) := by
  unfold InMemoryTransferStore.update
  cases hg : getAssoc s.transfers id with
  | none => simp
  | some t =>
    dsimp only
    split <;> rfl

/-- Successful `update` on an existing id yields the merged transfer and
stores it under that id. -/
theorem update_of_getById_some {s : InMemoryTransferStore} {id : String} {t : Transfer}
    (h : s.getById id = some t) (p : PartialTransfer) (now : Nat) :
    (s.update id p now).1 = some (applyUpdates t p now) ∧
    ((s.update id p now).2).getById id = some (applyUpdates t p now) := by
  unfold InMemoryTransferStore.getById at h
  constructor
  · unfold InMemoryTransferStore.update
    rw [h]
  · unfold InMemoryTransferStore.getById
    rw [update_snd_transfers, h]
    exact getAssoc_setAssoc ..

/-- C2 (theorem): for a valid `(id, token)` pair — the stored transfer
`t` exists and carries a matching, unconsumed, unexpired interactive
token — `completeInteractive` moves a deposit in `incomplete` to
`pending_user_transfer_start`, a withdrawal in `incomplete` to
`pending_anchor`, leaves any other starting status unchanged, and in all
cases the persisted transfer's interactive token is marked used. -/
theorem completeInteractive_status_transition
    (s : InMemoryTransferStore) (id tok : String) (now : Nat) (t t' : Transfer)
    (s' : InMemoryTransferStore)
    (hval : Sep24Service.validateInteractiveToken s id tok now = .ok t)
    (hcomp : Sep24Service.completeInteractive s id tok now = .ok (t', s')) :
    (t.kind = .deposit → t.status = .incomplete →
      t'.status = .pending_user_transfer_start) ∧
    (t.kind = .withdrawal → t.status = .incomplete →
      t'.status = .pending_anchor) ∧
    (t.status ≠ .incomplete → t'.status = t.status) ∧
    t'.interactiveToken.map InteractiveToken.used = some true ∧
    s'.getById id = some t' := by
  obtain ⟨hget, itok, hitok, -, -, -⟩ := validateInteractiveToken_ok hval
  unfold Sep24Service.completeInteractive at hcomp
  rw [hval] at hcomp
  simp only [hitok, Option.map_some'] at hcomp
  have hupd := update_of_getById_some hget
    { status := some (Sep24Service.getNextStatus
        { t with interactiveToken := some { itok with used := true } })
      interactiveToken := some (some { itok with used := true }) } now
  cases hu : s.update id
      { status := some (Sep24Service.getNextStatus
          { t with interactiveToken := some { itok with used := true } })
        interactiveToken := some (some { itok with used := true }) } now with
  | mk fst snd =>
    rw [hu] at hcomp hupd
    cases fst with
    | none => exact absurd hcomp (by simp)
    | some updated =>
      simp only at hcomp hupd
      injection hcomp with hcomp
      injection hcomp with h1 h2
      subst h1
      subst h2
      obtain ⟨hupd1, hupd2⟩ := hupd
      injection hupd1 with hupd1
      subst hupd1
      refine ⟨?_, ?_, ?_, ?_, hupd2⟩
      · intro hkind hst
        simp [applyUpdates, Sep24Service.getNextStatus, hst, hkind]
      · intro hkind hst
        simp [applyUpdates, Sep24Service.getNextStatus, hst, hkind]
      · intro hst
        simp [applyUpdates, Sep24Service.getNextStatus, hst]
      · simp [applyUpdates]

/-- A sample transfer: interactive deposit in `incomplete` with a live
interactive token, as created by `initiateDeposit`. -/
def sampleTransfer : Transfer :=
  { id := "t1", kind := .deposit, status := .incomplete, assetCode := "USDC"
    account := "GA", createdAt := 0, updatedAt := 0
    interactiveToken := some { token := "tok1", createdAt := 0, expiresAt := 100, used := false } }

/-- A sample store holding `sampleTransfer` with its token indexed, as
left by `InMemoryTransferStore.create`. -/
def sampleStore : InMemoryTransferStore :=
  { transfers := [("t1", sampleTransfer)], tokenIndex := [("tok1", "t1")] }

/-- `sampleTransfer` after a successful complete-interactive at time 5. -/
def sampleTransferDone : Transfer :=
  { sampleTransfer with
    status := .pending_user_transfer_start
    interactiveToken := some { token := "tok1", createdAt := 0, expiresAt := 100, used := true }
    updatedAt := 5 }

/-- `sampleStore` after that complete-interactive call. -/
def sampleStoreDone : InMemoryTransferStore :=
  { transfers := [("t1", sampleTransferDone)], tokenIndex := [("tok1", "t1")] }

/-- C2 (witness): on the concrete valid pair, the deposit in `incomplete`
moves to `pending_user_transfer_start` with its token consumed. -/
theorem completeInteractive_status_transition_witness :
    Sep24Service.validateInteractiveToken sampleStore "t1" "tok1" 5 = .ok sampleTransfer ∧
    Sep24Service.completeInteractive sampleStore "t1" "tok1" 5 =
      .ok (sampleTransferDone, sampleStoreDone) ∧
    sampleTransferDone.status = .pending_user_transfer_start ∧
    sampleTransferDone.interactiveToken.map InteractiveToken.used = some true := by
  have h := completeInteractive_status_transition sampleStore "t1" "tok1" 5
    sampleTransfer sampleTransferDone sampleStoreDone (by rfl) (by rfl)
  exact ⟨by rfl, by rfl, h.1 (by decide) (by decide), h.2.2.2.1⟩

/-- C10 (theorem): `update` on an id that is not in the store returns
`null` and leaves the store — both the transfer map and the
interactive-token index — exactly as it was. -/
theorem update_missing_id_noop (s : InMemoryTransferStore) (id : String)
    (p : PartialTransfer) (now : Nat)
    (h : s.getById id = none) :
    s.update id p now = (none, s) := by
  unfold InMemoryTransferStore.getById at h
  unfold InMemoryTransferStore.update
  rw [h]

/-- C10 (witness): updating an absent id in a concrete non-empty store. -/
theorem update_missing_id_noop_witness :
    sampleStore.getById "missing" = none ∧
    sampleStore.update "missing" { status := some .completed } 7 = (none, sampleStore) :=
  ⟨by rfl, update_missing_id_noop sampleStore "missing" { status := some .completed } 7 (by rfl)⟩

/-- C1 (theorem, exhibiting the code bug): the replay-protection step of
`verifyChallenge` only checks `nonceStore.has(nonce)` and never removes
the nonce or marks it consumed, so for a nonce present in the registry —
exactly the state after `createChallenge` registered it — the step
succeeds, returns the store unchanged, and therefore succeeds again on
the immediate replay of the same envelope instead of failing. -/
theorem verifyChallenge_replay_succeeds :
    let s : NonceStore := ((NonceStore.mk []).add "nonce1" 0).2
    s.has "nonce1" = true ∧
    verifyChallengeNonceStep s "nonce1" = (.ok (), s) ∧
    verifyChallengeNonceStep (verifyChallengeNonceStep s "nonce1").2 "nonce1" =
      (.ok (), s) := by
  exact ⟨by rfl, by rfl, by rfl⟩

/-- C9 (counterexample): the bearer-token guard's missing-header
rejection is a 403 whose JSON body has an `error` key but no `code` key,
so not every error response of the HTTP surface carries both fields. -/
theorem requireAuth_rejection_lacks_code :
    requireAuth (fun _ => none) none =
      .reject { status := 403, body := [("error", "Missing authorization header")] } ∧
    hasJsonKey [("error", "Missing authorization header")] "error" = true ∧
    hasJsonKey [("error", "Missing authorization header")] "code" = false := by
  exact ⟨by rfl, by rfl, by rfl⟩

/-- C9 (amended, theorem): every error envelope built by
`SepError.toJSON` carries both the `error` and the `code` keys, while
every rejection emitted by the bearer-token guard `requireAuth` carries
an `error` key but never a `code` key. -/
theorem error_envelope_keys (e : SepError) (verify : String → Option String)
    (authHeader : Option String) (resp : HttpResponse)
    (hrej : requireAuth verify authHeader = .reject resp) :
    hasJsonKey e.toJSON "error" = true ∧ hasJsonKey e.toJSON "code" = true ∧
    hasJsonKey resp.body "error" = true ∧ hasJsonKey resp.body "code" = false := by
  refine ⟨by simp [SepError.toJSON, hasJsonKey], by simp [SepError.toJSON, hasJsonKey], ?_, ?_⟩ <;>
  · unfold requireAuth at hrej
    split at hrej
    · injection hrej with hrej; subst hrej; rfl
    · split at hrej
      · injection hrej with hrej; subst hrej; rfl
      · split at hrej
        · injection hrej with hrej; subst hrej; rfl
        · exact absurd hrej (by simp)

/-- C9 (amended, witness): at the concrete missing-header rejection and
a concrete envelope. -/
theorem error_envelope_keys_witness :
    hasJsonKey (badRequest "nope").toJSON "error" = true ∧
    hasJsonKey (badRequest "nope").toJSON "code" = true ∧
    hasJsonKey [("error", "Missing authorization header")] "error" = true ∧
    hasJsonKey [("error", "Missing authorization header")] "code" = false :=
  error_envelope_keys (badRequest "nope") (fun _ => none) none
    { status := 403, body := [("error", "Missing authorization header")] } (by rfl)

/-- C7 (counterexample): the publisher's `getProtocol` treats only
`localhost` (exact or with a port) as unsecured; for the domain
`127.0.0.1:8000` — whose hostname begins with `127.0.0.1` — it picks
`https`, and the emitted endpoint URL is
`https://127.0.0.1:8000/auth`, not the claimed `http` URL. -/
theorem getProtocol_127001_is_https :
    strStartsWith "127.0.0.1:8000" "127.0.0.1" = true ∧
    getProtocol "127.0.0.1:8000" = "https" ∧
    buildSepUrl "127.0.0.1:8000" "/auth" = "https://127.0.0.1:8000/auth" := by
  refine ⟨by decide, by decide, by decide⟩

/-- C7 (amended, theorem): every endpoint URL the publisher emits is
`<scheme>://<domain><path>` where the scheme is `http` exactly when the
domain is `localhost` or begins with `localhost:`, and `https`
otherwise (in particular also for `127.0.0.1...` domains). -/
theorem buildSepUrl_scheme (domain path : String) :
    buildSepUrl domain path = getProtocol domain ++ "://" ++ domain ++ path ∧
    (getProtocol domain = "http" ↔
      domain = "localhost" ∨ strStartsWith domain "localhost:") := by
  constructor
  · rfl
  · unfold getProtocol
    by_cases h : domain = "localhost" ∨ strStartsWith domain "localhost:" <;> simp [h]

/-- A deposit- and withdraw-enabled asset configuration. -/
def enabledAsset : AssetConfig :=
  { deposit := some { enabled := true }, withdraw := some { enabled := true } }

/-- C5 (counterexample): with `USDC` configured, a SEP-6 deposit request
for `usdc` is rejected — the router's `server.config.assets[asset_code]`
lookup is case-sensitive — and the rejection message is
`Asset usdc is not supported`, not the claimed
`Asset usdc not supported by anchor`; meanwhile the SEP-24 route's
unknown-asset failure carries machine code `error`, not `bad_request`. -/
theorem sep6_asset_lookup_case_sensitive :
    sep6DepositAssetCheck [("USDC", enabledAsset)] "usdc" =
      .error (badRequest "Asset usdc is not supported") ∧
    (badRequest "Asset usdc is not supported").message ≠ "Asset usdc not supported by anchor" ∧
    sep24InitiateAssetError { supportedAssets := some ["USDC"] } "usdc" = none ∧
    sep24InitiateAssetError { supportedAssets := some ["USDC"] } "FAKE" =
      some { message := "Asset FAKE not supported by anchor", code := "error", status := 400 } := by
  refine ⟨by rfl, by decide, by rfl, by rfl⟩

/-- C5 (amended, theorem): the SEP-24 interactive initiation matches the
asset code case-insensitively (both sides upper-cased) and rejects an
unknown asset with message `Asset <code> not supported by anchor`,
surfaced by the route's catch block as status 400 with machine code
`error`; the SEP-6 programmatic initiation looks the code up
case-sensitively and rejects a missing key with the `bad_request`
envelope (code `bad_request`, status 400) and message
`Asset <code> is not supported`. -/
theorem initiation_asset_matching (supported : List String) (code : String)
    (assets : List (String × AssetConfig)) :
    (Sep24Service.validateAsset { supportedAssets := some supported } code = .ok () ↔
      (supported.map strToUpper).contains (strToUpper code) = true) ∧
    ((supported.map strToUpper).contains (strToUpper code) = false →
      sep24InitiateAssetError { supportedAssets := some supported } code =
        some { message := s!"Asset {code} not supported by anchor"
               code := "error", status := 400 }) ∧
    (getAssoc assets code = none →
      sep6DepositAssetCheck assets code =
        .error { message := s!"Asset {code} is not supported"
                 code := "bad_request", status := 400 } ∧
      sep6WithdrawAssetCheck assets code =
        .error { message := s!"Asset {code} is not supported"
                 code := "bad_request", status := 400 }) := by
  refine ⟨?_, ?_, ?_⟩
  · unfold Sep24Service.validateAsset
    by_cases h : (supported.map strToUpper).contains (strToUpper code) <;> simp [h]
  · intro h
    unfold sep24InitiateAssetError Sep24Service.validateAsset wrapPlainError
    simp only [h]
    simp
  · intro h
    unfold sep6DepositAssetCheck sep6WithdrawAssetCheck badRequest
    rw [h]
    exact ⟨rfl, rfl⟩

/-- C5 (amended, witness): `usdc` matches configured `USDC` on the
SEP-24 side, `FAKE` is rejected there with the wrapped plain error, and
`usdc` misses the case-sensitive SEP-6 lookup. -/
theorem initiation_asset_matching_witness :
    Sep24Service.validateAsset { supportedAssets := some ["USDC"] } "usdc" = .ok () ∧
    sep24InitiateAssetError { supportedAssets := some ["USDC"] } "FAKE" =
      some { message := "Asset FAKE not supported by anchor", code := "error", status := 400 } ∧
    sep6DepositAssetCheck [("USDC", enabledAsset)] "usdc" =
      .error { message := "Asset usdc is not supported", code := "bad_request", status := 400 } := by
  refine ⟨((initiation_asset_matching ["USDC"] "usdc" []).1).mpr (by decide),
    (initiation_asset_matching ["USDC"] "FAKE" []).2.1 (by decide),
    ((initiation_asset_matching ["USDC"] "usdc" [("USDC", enabledAsset)]).2.2 (by rfl)).1⟩

/-- After a successful `completeInteractive`, the stored transfer under
that id is the returned one and its interactive token is the matching
token marked used. -/
theorem completeInteractive_ok {s : InMemoryTransferStore} {id tok : String}
    {now : Nat} {t' : Transfer} {s' : InMemoryTransferStore}
    (hcomp : Sep24Service.completeInteractive s id tok now = .ok (t', s')) :
    s'.getById id = some t' ∧
    ∃ itok, t'.interactiveToken = some itok ∧ itok.token = tok ∧ itok.used = true := by
  cases hval : Sep24Service.validateInteractiveToken s id tok now with
  | error e =>
    unfold Sep24Service.completeInteractive at hcomp
    rw [hval] at hcomp
    exact absurd hcomp (by simp)
  | ok t =>
    obtain ⟨hget, itok, hitok, htokv, -, -⟩ := validateInteractiveToken_ok hval
    unfold Sep24Service.completeInteractive at hcomp
    rw [hval] at hcomp
    simp only [hitok, Option.map_some'] at hcomp
    have hupd := update_of_getById_some hget
      { status := some (Sep24Service.getNextStatus
          { t with interactiveToken := some { itok with used := true } })
        interactiveToken := some (some { itok with used := true }) } now
    cases hu : s.update id
        { status := some (Sep24Service.getNextStatus
            { t with interactiveToken := some { itok with used := true } })
          interactiveToken := some (some { itok with used := true }) } now with
    | mk fst snd =>
      rw [hu] at hcomp hupd
      cases fst with
      | none => exact absurd hcomp (by simp)
      | some updated =>
        simp only at hcomp hupd
        injection hcomp with hcomp
        injection hcomp with h1 h2
        subst h1
        subst h2
        obtain ⟨hupd1, hupd2⟩ := hupd
        injection hupd1 with hupd1
        subst hupd1
        refine ⟨hupd2, { itok with used := true }, by simp [applyUpdates], htokv, rfl⟩

/-- C3 (counterexample): on the concrete store, the first
`POST /interactive/complete` succeeds (200) and the replay fails with
status 400 but machine code `error` — the service throws a plain
`Error('Token already used')`, which the route's catch block wraps with
code `error`, not `bad_request`. -/
theorem complete_interactive_replay_not_bad_request :
    interactiveCompleteRoute sampleStore "t1" "tok1" 5 =
      ({ status := 200
         body := [("success", "true"), ("status", "pending_user_transfer_start"),
                  ("message", "Interactive flow completed successfully")] }, sampleStoreDone) ∧
    interactiveCompleteRoute sampleStoreDone "t1" "tok1" 6 =
      ({ status := 400
         body := [("error", "Token already used"), ("code", "error")] }, sampleStoreDone) ∧
    getAssoc [("error", "Token already used"), ("code", "error")] "code" ≠ some "bad_request" := by
  refine ⟨by rfl, by rfl, by decide⟩

/-- C3 (amended, theorem): the interactive token is single-use — after a
successful `complete_interactive(id, tok)`, a second call with the same
pair at any later time fails, surfacing as HTTP 400 with envelope
`{ error: 'Token already used', code: 'error' }` (the consumed flag
blocks the second transition; the machine code is `error` because the
service's plain error is wrapped by the route's catch block). -/
theorem complete_interactive_single_use
    (s : InMemoryTransferStore) (id tok : String) (now now2 : Nat)
    (t' : Transfer) (s' : InMemoryTransferStore)
    (hcomp : Sep24Service.completeInteractive s id tok now = .ok (t', s')) :
    Sep24Service.completeInteractive s' id tok now2 = .error "Token already used" ∧
    interactiveCompleteRoute s' id tok now2 =
      ({ status := 400
         body := [("error", "Token already used"), ("code", "error")] }, s') := by
  obtain ⟨hget, itok, hitok, htokv, hused⟩ := completeInteractive_ok hcomp
  have hsecond : Sep24Service.completeInteractive s' id tok now2 = .error "Token already used" := by
    unfold Sep24Service.completeInteractive Sep24Service.validateInteractiveToken
    rw [hget]
    simp [hitok, htokv, hused]
  refine ⟨hsecond, ?_⟩
  unfold interactiveCompleteRoute
  rw [hsecond]
  rfl

/-- C3 (amended, witness): at the concrete first call. -/
theorem complete_interactive_single_use_witness :
    Sep24Service.completeInteractive sampleStore "t1" "tok1" 5 =
      .ok (sampleTransferDone, sampleStoreDone) ∧
    interactiveCompleteRoute sampleStoreDone "t1" "tok1" 6 =
      ({ status := 400
         body := [("error", "Token already used"), ("code", "error")] }, sampleStoreDone) :=
  ⟨by rfl,
   (complete_interactive_single_use sampleStore "t1" "tok1" 5 6
     sampleTransferDone sampleStoreDone (by rfl)).2⟩

/-- Characterization of a successful `updateStatus`: the result is the
stored transfer with `{ status, completedAt, ...updates }` applied
(extra updates winning), and it is persisted under the id. -/
theorem updateStatus_ok {s : InMemoryTransferStore} {id : String}
    {st : TransferStatus} {updates : PartialTransfer} {now : Nat}
    {t' : Transfer} {s' : InMemoryTransferStore}
    (hupd : Sep24Service.updateStatus s id st updates now = .ok (t', s')) :
    ∃ t, s.getById id = some t ∧
      t' = applyUpdates t
        (PartialTransfer.merge
          { status := some st
            completedAt := some (if Sep24Service.isTerminalStatus st then some now else none) }
          updates) now ∧
      s'.getById id = some t' := by
  cases hget : s.getById id with
  | none =>
    unfold Sep24Service.updateStatus at hupd
    rw [hget] at hupd
    exact absurd hupd (by simp)
  | some t =>
    unfold Sep24Service.updateStatus at hupd
    rw [hget] at hupd
    dsimp only at hupd
    obtain ⟨h1, h2⟩ := update_of_getById_some hget
      (PartialTransfer.merge
        { status := some st
          completedAt := some (if Sep24Service.isTerminalStatus st then some now else none) }
        updates) now
    cases hu : s.update id
        (PartialTransfer.merge
          { status := some st
            completedAt := some (if Sep24Service.isTerminalStatus st then some now else none) }
          updates) now with
    | mk fst snd =>
      rw [hu] at hupd h1 h2
      simp only at h1 h2
      subst h1
      simp only at hupd
      injection hupd with hupd
      injection hupd with hA hB
      subst hA
      subst hB
      exact ⟨t, rfl, rfl, h2⟩

/-- `sampleTransfer` after `updateStatus("t1", completed, { status:
incomplete })` at time 9: the extra updates override the status back to
`incomplete` while the terminal branch has set `completedAt`. -/
def overriddenTransfer : Transfer :=
  { sampleTransfer with completedAt := some 9, updatedAt := 9 }

/-- The store after that call. -/
def overriddenStore : InMemoryTransferStore :=
  { transfers := [("t1", overriddenTransfer)], tokenIndex := [("tok1", "t1")] }

/-- C4 (counterexample): `update_status(id, completed)` with extra
updates `{ status: incomplete }` — which override neither field the
claim exempts, since `completed-at` is untouched — yields a transfer
whose status is `incomplete` (not the requested `completed`) while
`completed-at` is set to now: the claim's "always sets status to s"
fails and the invariant "completed-at is set exactly when the status is
terminal" is broken by this call. -/
theorem updateStatus_status_override_breaks_invariant :
    Sep24Service.updateStatus sampleStore "t1" .completed { status := some .incomplete } 9 =
      .ok (overriddenTransfer, overriddenStore) ∧
    overriddenTransfer.status ≠ .completed ∧
    Sep24Service.isTerminalStatus overriddenTransfer.status = false ∧
    overriddenTransfer.completedAt = some 9 := by
  refine ⟨by rfl, by decide, by rfl, by rfl⟩

/-- C4 (amended, theorem): when the extra updates override neither
`status` nor `completedAt`, a successful `update_status(id, s)` sets the
status to `s`, sets `completed-at` to now exactly when `s` is terminal
(`completed`, `error`, `refunded`) and clears it otherwise — so the
invariant "completed-at is set iff the status is terminal" holds of the
updated transfer. -/
theorem updateStatus_sets_status_and_completedAt
    (s : InMemoryTransferStore) (id : String) (st : TransferStatus)
    (updates : PartialTransfer) (now : Nat) (t' : Transfer)
    (s' : InMemoryTransferStore)
    (hns : updates.status = none) (hnc : updates.completedAt = none)
    (hupd : Sep24Service.updateStatus s id st updates now = .ok (t', s')) :
    t'.status = st ∧
    t'.completedAt = (if Sep24Service.isTerminalStatus st then some now else none) ∧
    (Sep24Service.isTerminalStatus t'.status = true ↔ t'.completedAt.isSome = true) := by
  obtain ⟨t, -, ht', -⟩ := updateStatus_ok hupd
  subst ht'
  have hst : (applyUpdates t
      (PartialTransfer.merge
        { status := some st
          completedAt := some (if Sep24Service.isTerminalStatus st then some now else none) }
        updates) now).status = st := by
    simp [applyUpdates, PartialTransfer.merge, hns]
  have hca : (applyUpdates t
      (PartialTransfer.merge
        { status := some st
          completedAt := some (if Sep24Service.isTerminalStatus st then some now else none) }
        updates) now).completedAt =
      (if Sep24Service.isTerminalStatus st then some now else none) := by
    simp [applyUpdates, PartialTransfer.merge, hnc]
  refine ⟨hst, hca, ?_⟩
  rw [hst, hca]
  cases hterm : Sep24Service.isTerminalStatus st <;> simp [hterm]

/-- C4 (amended, witness): a terminal update on the concrete store. -/
theorem updateStatus_sets_status_and_completedAt_witness :
    ∃ t' s', Sep24Service.updateStatus sampleStore "t1" .completed {} 9 = .ok (t', s') ∧
      t'.status = .completed ∧ t'.completedAt = some 9 := by
  refine ⟨{ sampleTransfer with status := .completed, completedAt := some 9, updatedAt := 9 },
    { transfers := [("t1",
        { sampleTransfer with status := .completed, completedAt := some 9, updatedAt := 9 })]
      tokenIndex := [("tok1", "t1")] }, by rfl, ?_, ?_⟩
  · exact (updateStatus_sets_status_and_completedAt sampleStore "t1" .completed {} 9
      _ _ (by rfl) (by rfl) (by rfl)).1
  · rfl

/-- Key presence distributes over list append. -/
theorem hasTomlKey_append (a b : List TomlLine) (k : String) :
    hasTomlKey (a ++ b) k = (hasTomlKey a k || hasTomlKey b k) := by
  simp [hasTomlKey, List.any_append]

/-- Key presence in a conditionally emitted key-value line. -/
theorem hasTomlKey_optKv (key k : String) (v : Option String) :
    hasTomlKey (optKv key v) k = (v.isSome && decide (key = k)) := by
  cases v <;> simp [optKv, hasTomlKey]

/-- The `[DOCUMENTATION]` body never carries an endpoint key: its keys
are the seven fixed `org_*` names. -/
theorem hasTomlKey_documentationLines (m : AnchorMeta) (k : String)
    (hk : k = "WEB_AUTH_ENDPOINT" ∨ k = "TRANSFER_SERVER_SEP0024" ∨ k = "TRANSFER_SERVER") :
    hasTomlKey (documentationLines m) k = false := by
  rcases hk with hk | hk | hk <;> subst hk <;>
    simp [documentationLines, hasTomlKey_append, hasTomlKey_optKv]

/-- A currency section never carries an endpoint key: its keys are the
fixed currency field names. -/
theorem hasTomlKey_currencyFieldLines (c : CurrencyInfo) (k : String)
    (hk : k = "WEB_AUTH_ENDPOINT" ∨ k = "TRANSFER_SERVER_SEP0024" ∨ k = "TRANSFER_SERVER") :
    hasTomlKey (currencyFieldLines c) k = false := by
  rcases hk with hk | hk | hk <;> subst hk <;>
    simp only [currencyFieldLines, hasTomlKey_append, hasTomlKey_optKv] <;>
    simp [hasTomlKey]

/-- The whole `[[CURRENCIES]]` block never carries an endpoint key. -/
theorem hasTomlKey_currenciesSection (cs : List CurrencyInfo) (k : String)
    (hk : k = "WEB_AUTH_ENDPOINT" ∨ k = "TRANSFER_SERVER_SEP0024" ∨ k = "TRANSFER_SERVER") :
    hasTomlKey (cs.flatMap (fun c =>
      [TomlLine.blank, TomlLine.header "[[CURRENCIES]]"] ++ currencyFieldLines c)) k = false := by
  induction cs with
  | nil => simp [hasTomlKey]
  | cons c rest ih =>
    rw [List.flatMap_cons, hasTomlKey_append, hasTomlKey_append, ih,
      hasTomlKey_currencyFieldLines c k hk]
    simp [hasTomlKey]

/-- Specializations of the block lemmas to the three endpoint keys, in
rewrite-friendly unconditional form. -/
theorem hasTomlKey_doc_auth (m : AnchorMeta) :
    hasTomlKey (documentationLines m) "WEB_AUTH_ENDPOINT" = false :=
  hasTomlKey_documentationLines m _ (Or.inl rfl)

theorem hasTomlKey_doc_sep24 (m : AnchorMeta) :
    hasTomlKey (documentationLines m) "TRANSFER_SERVER_SEP0024" = false :=
  hasTomlKey_documentationLines m _ (Or.inr (Or.inl rfl))

theorem hasTomlKey_doc_sep6 (m : AnchorMeta) :
    hasTomlKey (documentationLines m) "TRANSFER_SERVER" = false :=
  hasTomlKey_documentationLines m _ (Or.inr (Or.inr rfl))

theorem hasTomlKey_cur_auth (cs : List CurrencyInfo) :
    hasTomlKey (cs.flatMap (fun c =>
      [TomlLine.blank, TomlLine.header "[[CURRENCIES]]"] ++ currencyFieldLines c))
      "WEB_AUTH_ENDPOINT" = false :=
  hasTomlKey_currenciesSection cs _ (Or.inl rfl)

theorem hasTomlKey_cur_sep24 (cs : List CurrencyInfo) :
    hasTomlKey (cs.flatMap (fun c =>
      [TomlLine.blank, TomlLine.header "[[CURRENCIES]]"] ++ currencyFieldLines c))
      "TRANSFER_SERVER_SEP0024" = false :=
  hasTomlKey_currenciesSection cs _ (Or.inr (Or.inl rfl))

theorem hasTomlKey_cur_sep6 (cs : List CurrencyInfo) :
    hasTomlKey (cs.flatMap (fun c =>
      [TomlLine.blank, TomlLine.header "[[CURRENCIES]]"] ++ currencyFieldLines c))
      "TRANSFER_SERVER" = false :=
  hasTomlKey_currenciesSection cs _ (Or.inr (Or.inr rfl))

/-- A fresh (cache-miss) rendering carries each endpoint key exactly
when the corresponding module flag is mounted. -/
theorem hasTomlKey_stringify_fresh (server : AnchorServerState) :
    hasTomlKey (stringifyToml server (buildFromServer server)) "WEB_AUTH_ENDPOINT" =
      server.mounted10 ∧
    hasTomlKey (stringifyToml server (buildFromServer server)) "TRANSFER_SERVER_SEP0024" =
      server.mounted24 ∧
    hasTomlKey (stringifyToml server (buildFromServer server)) "TRANSFER_SERVER" =
      server.mounted6 := by
  unfold stringifyToml buildFromServer
  dsimp only
  cases h10 : server.mounted10 <;> cases h24 : server.mounted24 <;>
    cases h6 : server.mounted6 <;> cases hmeta : server.meta <;>
    refine ⟨?_, ?_, ?_⟩ <;>
    simp only [hasTomlKey_append, hasTomlKey_optKv, hasTomlKey_doc_auth,
      hasTomlKey_doc_sep24, hasTomlKey_doc_sep6, hasTomlKey_cur_auth,
      hasTomlKey_cur_sep24, hasTomlKey_cur_sep6, optKv, Option.map_some',
      Option.map_none', if_true, if_false] <;>
    simp [hasTomlKey]

/-- C6 (amended, theorem): a cache-miss render reflects the mounted-module
set exactly — each endpoint key (`WEB_AUTH_ENDPOINT` for sep10,
`TRANSFER_SERVER_SEP0024` for sep24, `TRANSFER_SERVER` for sep6) is
present iff the module is mounted — but mutating the mounted-module set
does not invalidate the publisher's cache: a render with a cached
document returns that document unchanged, whatever the current mount
set, so a render performed after mounting a module reflects that module
only when no earlier render populated the cache (or `invalidateCache`
was called explicitly — no repository code calls it). -/
theorem render_mount_reflection (server : AnchorServerState) (pub : TomlPublisher) :
    (pub.cachedToml = none →
      hasTomlKey (TomlPublisher.render pub server).1 "WEB_AUTH_ENDPOINT" = server.mounted10 ∧
      hasTomlKey (TomlPublisher.render pub server).1 "TRANSFER_SERVER_SEP0024" =
        server.mounted24 ∧
      hasTomlKey (TomlPublisher.render pub server).1 "TRANSFER_SERVER" = server.mounted6) ∧
    (∀ doc, pub.cachedToml = some doc → TomlPublisher.render pub server = (doc, pub)) := by
  constructor
  · intro hnone
    unfold TomlPublisher.render
    rw [hnone]
    exact hasTomlKey_stringify_fresh server
  · intro doc hdoc
    unfold TomlPublisher.render
    rw [hdoc]

/-- A concrete server with sep10 mounted, used for the discovery
publisher claims. -/
def sampleServer : AnchorServerState :=
  { publicKey := "GKEY", networkPassphrase := "Test SDF Network"
    mounted10 := true, domain := "example.com", network := .testnet
    assets := [("USDC", enabledAsset)] }

/-- C6 (counterexample): with sep10 mounted, a first render caches the
document (no `TRANSFER_SERVER_SEP0024`); after mounting sep24 the next
render returns the stale cached document still lacking
`TRANSFER_SERVER_SEP0024`, although a fresh render of the same mount set
would contain it — mounting does not invalidate the cache, refuting the
claim for renders performed through the cached publisher. -/
theorem render_cache_stale_after_mount :
    (mountSep24 sampleServer).mounted24 = true ∧
    (TomlPublisher.render
        (TomlPublisher.render { cachedToml := none } sampleServer).2
        (mountSep24 sampleServer)).1 =
      (TomlPublisher.render { cachedToml := none } sampleServer).1 ∧
    hasTomlKey (TomlPublisher.render
        (TomlPublisher.render { cachedToml := none } sampleServer).2
        (mountSep24 sampleServer)).1 "TRANSFER_SERVER_SEP0024" = false ∧
    hasTomlKey (TomlPublisher.render { cachedToml := none }
        (mountSep24 sampleServer)).1 "TRANSFER_SERVER_SEP0024" = true := by
  refine ⟨by rfl, by rfl, by rfl, by rfl⟩

/-- C6 (amended, witness): on the concrete server, the fresh render
carries `WEB_AUTH_ENDPOINT` (sep10 mounted) and omits
`TRANSFER_SERVER_SEP0024` (sep24 unmounted), and a cached publisher
returns its cached document. -/
theorem render_mount_reflection_witness :
    hasTomlKey (TomlPublisher.render { cachedToml := none } sampleServer).1
      "WEB_AUTH_ENDPOINT" = true ∧
    hasTomlKey (TomlPublisher.render { cachedToml := none } sampleServer).1
      "TRANSFER_SERVER_SEP0024" = false ∧
    TomlPublisher.render { cachedToml := some [] } sampleServer = ([], { cachedToml := some [] }) := by
  have h := render_mount_reflection sampleServer { cachedToml := none }
  refine ⟨(h.1 rfl).1.trans (by rfl), (h.1 rfl).2.1.trans (by rfl),
    (render_mount_reflection sampleServer { cachedToml := some [] }).2 [] rfl⟩

/-- The conjunction of the account test and the three optional filters
of `listByAccount`, as one predicate (in the order the code applies
them). -/
def matchesFilters (account : String) (options : InMemoryTransferStore.FindByAccountOptions)
    (t : Transfer) : Bool :=
  decide (t.account = account) &&
  (match options.assetCode with | some c => decide (t.assetCode = c) | none => true) &&
  (match options.kind with | some k => decide (t.kind = k) | none => true) &&
  (match options.noOlderThan with | some d => decide (d ≤ t.createdAt) | none => true)

/-- The comparator of `listByAccount` is transitive and total, so its
merge sort is sorted newest-first. -/
theorem pairwise_mergeSort_createdDesc (l : List Transfer) :
    (l.mergeSort InMemoryTransferStore.createdDesc).Pairwise
      (fun a b => b.createdAt ≤ a.createdAt) := by
  have htrans : ∀ a b c : Transfer, InMemoryTransferStore.createdDesc a b →
      InMemoryTransferStore.createdDesc b c → InMemoryTransferStore.createdDesc a c := by
    intro a b c h1 h2
    simp [InMemoryTransferStore.createdDesc] at *
    omega
  have htotal : ∀ a b : Transfer, InMemoryTransferStore.createdDesc a b ||
      InMemoryTransferStore.createdDesc b a := by
    intro a b
    simp [InMemoryTransferStore.createdDesc]
    omega
  have h := List.sorted_mergeSort htrans htotal l
  exact h.imp (fun hab => by
    simpa [InMemoryTransferStore.createdDesc] using hab)

/-- Without a positive limit, `listByAccount` is a permutation of the
account's stored transfers filtered by the optional criteria. -/
theorem listByAccount_unlimited_perm (s : InMemoryTransferStore) (account : String)
    (ac : Option String) (kd : Option TransferKind) (no : Option Nat) :
    (s.listByAccount account ⟨ac, kd, no, none⟩).Perm
      ((s.transfers.map Prod.snd).filter (matchesFilters account ⟨ac, kd, no, none⟩)) := by
  unfold InMemoryTransferStore.listByAccount
  cases ac <;> cases kd <;> cases no <;>
  · dsimp only
    refine (List.mergeSort_perm _ _).trans ?_
    try simp only [List.filter_filter]
    refine (List.filter_congr (fun t ht => ?_)) ▸ List.Perm.refl _
    simp [matchesFilters, Bool.and_comm, Bool.and_left_comm, Bool.and_assoc]

/-- C8 (theorem): `listByAccount` returns the stored transfers of the
account sorted by created-at descending (newest first) after the
asset-code, kind and not-older-than filters — every returned element is
a stored transfer of the account satisfying all supplied filters, a
positive limit truncates the (sorted, filtered) unlimited result to its
first `limit` elements, a zero or negative limit is ignored (the call
behaves as if no limit were supplied), and the unlimited result is
exactly (a permutation before sorting of) the account's stored
transfers passing the filters. -/
theorem listByAccount_spec (s : InMemoryTransferStore) (account : String)
    (options : InMemoryTransferStore.FindByAccountOptions) :
    List.Pairwise (fun a b : Transfer => b.createdAt ≤ a.createdAt)
      (s.listByAccount account options) ∧
    (∀ t ∈ s.listByAccount account options,
      t ∈ s.transfers.map Prod.snd ∧ t.account = account ∧
      (∀ c, options.assetCode = some c → t.assetCode = c) ∧
      (∀ k, options.kind = some k → t.kind = k) ∧
      (∀ d, options.noOlderThan = some d → d ≤ t.createdAt)) ∧
    (∀ l, options.limit = some l → 0 < l →
      s.listByAccount account options =
        (s.listByAccount account { options with limit := none }).take l.toNat) ∧
    (∀ l, options.limit = some l → l ≤ 0 →
      s.listByAccount account options =
        s.listByAccount account { options with limit := none }) ∧
    (s.listByAccount account { options with limit := none }).Perm
      ((s.transfers.map Prod.snd).filter (matchesFilters account options)) := by
  obtain ⟨ac, kd, no, lim⟩ := options
  have hperm := listByAccount_unlimited_perm s account ac kd no
  refine ⟨?_, ?_, ?_, ?_, ?_⟩
  · unfold InMemoryTransferStore.listByAccount
    dsimp only
    cases lim with
    | none => exact pairwise_mergeSort_createdDesc _
    | some l =>
      dsimp only
      split
      · exact List.Pairwise.sublist (List.take_sublist _ _) (pairwise_mergeSort_createdDesc _)
      · exact pairwise_mergeSort_createdDesc _
  · intro t ht
    have hunlim : t ∈ s.listByAccount account ⟨ac, kd, no, none⟩ := by
      cases lim with
      | none => exact ht
      | some l =>
        unfold InMemoryTransferStore.listByAccount at ht ⊢
        dsimp only at ht ⊢
        split at ht
        · exact (List.take_sublist _ _).subset ht
        · exact ht
    have hmemf := (hperm.mem_iff).mp hunlim
    rw [List.mem_filter] at hmemf
    obtain ⟨hbase, hcond⟩ := hmemf
    simp only [matchesFilters, Bool.and_eq_true, decide_eq_true_eq] at hcond
    obtain ⟨⟨⟨hacc, hasset⟩, hkind⟩, hno⟩ := hcond
    refine ⟨hbase, hacc, ?_, ?_, ?_⟩
    · intro c hc
      subst hc
      simpa using hasset
    · intro k hk
      subst hk
      simpa using hkind
    · intro d hd
      subst hd
      simpa using hno
  · intro l hl hpos
    subst hl
    unfold InMemoryTransferStore.listByAccount
    dsimp only
    rw [if_pos hpos]
  · intro l hl hneg
    subst hl
    unfold InMemoryTransferStore.listByAccount
    dsimp only
    rw [if_neg (by omega)]
  · exact hperm

/-- Three stored transfers for one account at distinct creation times,
mirroring the spec's list-filtering scenario. -/
def trUsdcDeposit : Transfer :=
  { id := "a", kind := .deposit, status := .incomplete, assetCode := "USDC"
    account := "GA", createdAt := 10, updatedAt := 10 }

def trBtcDeposit : Transfer :=
  { id := "b", kind := .deposit, status := .incomplete, assetCode := "BTC"
    account := "GA", createdAt := 20, updatedAt := 20 }

def trUsdcWithdrawal : Transfer :=
  { id := "c", kind := .withdrawal, status := .incomplete, assetCode := "USDC"
    account := "GA", createdAt := 30, updatedAt := 30 }

def listStore : InMemoryTransferStore :=
  { transfers := [("a", trUsdcDeposit), ("b", trBtcDeposit), ("c", trUsdcWithdrawal)] }

unseal List.merge List.mergeSort in
/-- C8 (witness): filtering by `USDC`/`deposit` with `limit = 1` yields
exactly the USDC deposit; the sortedness clause and the take-limit
clause of the theorem are exercised at this input, and `limit = 0` and
`limit = -5` behave as no limit. -/
theorem listByAccount_spec_witness :
    listStore.listByAccount "GA" ⟨some "USDC", some .deposit, none, some 1⟩ =
      [trUsdcDeposit] ∧
    List.Pairwise (fun a b : Transfer => b.createdAt ≤ a.createdAt)
      (listStore.listByAccount "GA" ⟨some "USDC", some .deposit, none, some 1⟩) ∧
    listStore.listByAccount "GA" ⟨none, none, none, some 0⟩ =
      listStore.listByAccount "GA" ⟨none, none, none, none⟩ ∧
    listStore.listByAccount "GA" ⟨none, none, none, some (-5)⟩ =
      listStore.listByAccount "GA" ⟨none, none, none, none⟩ := by
  refine ⟨?_, (listByAccount_spec listStore "GA" ⟨some "USDC", some .deposit, none, some 1⟩).1,
    ?_, ?_⟩
  · rw [(listByAccount_spec listStore "GA"
      ⟨some "USDC", some .deposit, none, some 1⟩).2.2.1 1 rfl (by decide)]
    rfl
  · exact (listByAccount_spec listStore "GA"
      ⟨none, none, none, some 0⟩).2.2.2.1 0 rfl (by decide)
  · exact (listByAccount_spec listStore "GA"
      ⟨none, none, none, some (-5)⟩).2.2.2.1 (-5) rfl (by decide)
